import Mathlib

/-!
Verification of the AppointMate scheduling engine.

This file gives a shallow embedding of the Scheduling and Conflict-Resolution
Engine (src/database.py and src/tools.py) and proves or refutes the frozen
claims about it.

Modelling conventions:
- Timestamps are natural numbers counting microseconds since a reference
  Monday 00:00 (Python datetimes have microsecond precision; the working-hours
  code compares a `time(23, 59, 59, 999999)` literal, so minute granularity
  would not be faithful).  `weekday` and `timeOfDay` mirror
  `datetime.weekday()` (0 = Monday) and `datetime.time()`.
- Text (client names, emails) is represented as `List Char`; Python
  `str.strip()` is modelled by `strip` below.
- The SQLite table is a `List Appointment`; the ISO-string comparisons in the
  SQL queries are order- and equality-faithful on the fixed-width ISO strings
  the engine writes, so they are modelled as numeric comparisons on the
  timestamp values.
- `datetime.strptime(s, fmt)` is modelled by passing the tool layer an
  `Option Nat`: `some t` is a successfully parsed timestamp, `none` models a
  string that raises `ValueError` (caught by the tools and turned into an
  invalid-input reply).
- Each distinct return site of the tool functions is mapped to a constructor
  of `Res`, following the error taxonomy of the specification.
-/

namespace AppointMate

/-- Microseconds in one minute. -/
def microsPerMinute : Nat := 60000000

/-- Microseconds in one day. -/
def microsPerDay : Nat := 86400000000

/-- Time of day given as hours and minutes, in microseconds. -/
def hm (h m : Nat) : Nat := (h * 60 + m) * microsPerMinute

/-- Timestamp on day number `day` (day 0 is a Monday) at `h:m`. -/
def dtOn (day h m : Nat) : Nat := day * microsPerDay + hm h m

/-- Weekday of a timestamp, 0 = Monday .. 6 = Sunday, as `datetime.weekday()`. -/
def weekday (dt : Nat) : Nat := dt / microsPerDay % 7

/-- Time of day of a timestamp in microseconds, as `datetime.time()`. -/
def timeOfDay (dt : Nat) : Nat := dt % microsPerDay

/-- Text values (Python `str`) are modelled as lists of characters. -/
abbrev Str := List Char

/-- Characters removed by Python `str.strip()` (the common whitespace set). -/
def isSpaceChar (c : Char) : Bool := c == ' ' || c == '\t' || c == '\n' || c == '\r'

/-- Python `str.strip()`: drop leading and trailing whitespace. -/
def strip (s : Str) : Str :=
  ((s.dropWhile isSpaceChar).reverse.dropWhile isSpaceChar).reverse

/-- A row of the `appointments` table (src/database.py, CREATE TABLE). -/
structure Appointment where
  id : Nat
  client_name : Str
  appointment_datetime : Nat
  duration_minutes : Nat
  booked_at : Nat
  email : Str
deriving DecidableEq

/-- The appointments table. -/
abbrev Store := List Appointment

/-- WORKING_HOURS of src/database.py: Monday..Friday map to (9:00, 17:00),
Saturday and Sunday are absent.  Kept as an explicit parameter of the
functions below so that configurations other than the shipped one can be
discussed; `workingHours` is the shipped table. -/
def workingHours (d : Nat) : Option (Nat × Nat) :=
  if d ≤ 4 then some (hm 9 0, hm 17 0) else none

/-- Configuration type for a working-hours table. -/
abbrev WHTable := Nat → Option (Nat × Nat)

/-- get_booked_slots of src/database.py: the start times of appointments whose
`appointment_datetime` lies in `[lo, hi)`. -/
def get_booked_slots (store : Store) (lo hi : Nat) : List Nat :=
  (store.filter (fun a => decide (lo ≤ a.appointment_datetime ∧ a.appointment_datetime < hi))).map
    (fun a => a.appointment_datetime)

/-- is_slot_already_booked of src/database.py: some row has exactly this
start time. -/
def is_slot_already_booked (store : Store) (dtv : Nat) : Bool :=
  store.any (fun a => decide (a.appointment_datetime = dtv))

/-- is_slot_within_working_hours of src/database.py.  `D` is
APPOINTMENT_DURATION_MINUTES.  Note that the source computes
`(dt_obj + slot_duration).time()`, i.e. the slot end as a time of day, which
wraps past midnight; `timeOfDay (dt + D * microsPerMinute)` reproduces that
exactly.  A close time equal to midnight is replaced by
`time(23, 59, 59, 999999)`, i.e. `microsPerDay - 1`. -/
def is_slot_within_working_hours (wh : WHTable) (D dt : Nat) : Bool :=
  match wh (weekday dt) with
  | none => false
  | some (o, c) =>
    let slotEndTime := timeOfDay (dt + D * microsPerMinute)
    let effectiveEnd := if c = 0 then microsPerDay - 1 else c
    decide (o ≤ timeOfDay dt) && decide (slotEndTime ≤ effectiveEnd)

/-- The while loop of find_available_slots in src/database.py: starting at
`cur`, while `cur + D ≤ bound` append `cur` unless it is booked, then step by
`D`.  `fuel` is an upper bound on the number of iterations; the callers pass
enough fuel that it never runs out (the Python loop needs no fuel but only
terminates when the step is positive, which the theorems assume). -/
def slotsLoop (Dm bound : Nat) (booked : List Nat) : Nat → Nat → List Nat
  | 0, _ => []
  | fuel + 1, cur =>
    if cur + Dm ≤ bound then
      if booked.contains cur then slotsLoop Dm bound booked fuel (cur + Dm)
      else cur :: slotsLoop Dm bound booked fuel (cur + Dm)
    else []

/-- find_available_slots of src/database.py.  `day` is the day number of the
target date (day 0 a Monday); the source only uses the date's weekday and its
midnight, both recovered from `day`.  Returns the candidate start times of
the working window that are not booked, in generation order. -/
def find_available_slots (wh : WHTable) (D : Nat) (store : Store) (day : Nat) : List Nat :=
  match wh (day % 7) with
  | none => []
  | some (o, c) =>
    let dayStart := day * microsPerDay
    let booked := get_booked_slots store dayStart (dayStart + microsPerDay)
    slotsLoop (D * microsPerMinute) (dayStart + c) booked (dayStart + c + 1) (dayStart + o)

/-- Key allocation for INSERT under `id INTEGER PRIMARY KEY AUTOINCREMENT`:
a key larger than every key in use. -/
def nextId (store : Store) : Nat := (store.map (fun a => a.id)).foldr Nat.max 0 + 1

/-- add_appointment of src/database.py.  The function checks for a row with
the same `appointment_datetime` and refuses the insert if one exists; the
UNIQUE constraint on that column makes the same condition the commit-time
safety net (an `IntegrityError` is caught and also returns `false`), so in
this sequential model both rejection paths coincide in the single check
below.  `D` is APPOINTMENT_DURATION_MINUTES, `now` is `datetime.now()`. -/
def add_appointment (D now : Nat) (name : Str) (dtv : Nat) (email : Str) (store : Store) :
    Bool × Store :=
  if store.any (fun a => decide (a.appointment_datetime = dtv)) then (false, store)
  else (true, store ++ [⟨nextId store, name, dtv, D, now, email⟩])

/-- update_appointment_in_db of src/database.py: refuse if the new time is
taken by anyone; otherwise find the first row matching the client name and the
old time and set its `appointment_datetime` (UPDATE ... WHERE id = ?). -/
def update_appointment_in_db (name : Str) (oldv newv : Nat) (store : Store) : Bool × Store :=
  if store.any (fun a => decide (a.appointment_datetime = newv)) then (false, store)
  else
    match store.find? (fun a => decide (a.client_name = name ∧ a.appointment_datetime = oldv)) with
    | none => (false, store)
    | some orig =>
      (true, store.map (fun b =>
        if b.id = orig.id then { b with appointment_datetime := newv } else b))

/-- Row predicate of the Cancellation Transaction: both the start time and the
client name match exactly. -/
def cancelMatch (dtv : Nat) (name : Str) (a : Appointment) : Bool :=
  decide (a.appointment_datetime = dtv ∧ a.client_name = name)

/-- Modelled from the spec: `delete_appointment_from_db` is imported and
called by src/tools.py but its definition is not among the source files.
Following section 4.6 of the specification, it locates the unique appointment
matching both the start time and the client name exactly and removes it,
returning success; if no such appointment exists it reports not-found and
leaves the store unchanged. -/
def delete_appointment_from_db (dtv : Nat) (name : Str) (store : Store) : Bool × Store :=
  if store.any (cancelMatch dtv name) then (true, store.eraseP (cancelMatch dtv name))
  else (false, store)

/-- Outcome kinds of the tool layer, one per distinct return site of
src/tools.py, named after the error taxonomy of the specification. -/
inductive Res where
  | success
  | invalidInput
  | emptyName
  | pastTime
  | outOfHours
  | slotConflict
  | notFound
deriving DecidableEq

/-- book_appointment of src/tools.py: reject a name that is empty after
stripping; reject an unparseable datetime; reject a time strictly before
`now`; otherwise attempt the insert, reporting its failure as the
slot-conflict reply. -/
def book_appointment (D now : Nat) (parsed : Option Nat) (name email : Str) (store : Store) :
    Res × Store :=
  if strip name = [] then (.emptyName, store)
  else
    match parsed with
    | none => (.invalidInput, store)
    | some dtv =>
      if dtv < now then (.pastTime, store)
      else
        match add_appointment D now name dtv email store with
        | (true, s) => (.success, s)
        | (false, s) => (.slotConflict, s)

/-- cancel_appointment of src/tools.py: reject an unparseable datetime, then
delegate to the deletion and report its boolean as success or not-found. -/
def cancel_appointment (parsed : Option Nat) (name : Str) (store : Store) : Res × Store :=
  match parsed with
  | none => (.invalidInput, store)
  | some dtv =>
    match delete_appointment_from_db dtv name store with
    | (true, s) => (.success, s)
    | (false, s) => (.notFound, s)

/-- edit_appointment of src/tools.py, in source order: empty-name check,
parse of both datetimes (`none` models the caught `ValueError`), past check on
the new time, working-hours check, booked check, then the database update;
the update failing can only mean no row matched the (stripped) client name and
the current time, reported as the not-found reply. -/
def edit_appointment (wh : WHTable) (D now : Nat) (po pn : Option Nat) (name : Str)
    (store : Store) : Res × Store :=
  if strip name = [] then (.emptyName, store)
  else
    match po, pn with
    | some oldv, some newv =>
      if newv < now then (.pastTime, store)
      else if is_slot_within_working_hours wh D newv = false then (.outOfHours, store)
      else if is_slot_already_booked store newv then (.slotConflict, store)
      else
        match update_appointment_in_db (strip name) oldv newv store with
        | (true, s) => (.success, s)
        | (false, s) => (.notFound, s)
    | _, _ => (.invalidInput, store)

/-- The generated tiling of a default working day: starts at 9:00 stepping by
`D` minutes for as long as a full slot fits before 17:00. -/
def slotGrid (D day : Nat) : List Nat :=
  (List.range ((hm 17 0 - hm 9 0) / (D * microsPerMinute))).map
    (fun k => day * microsPerDay + hm 9 0 + k * (D * microsPerMinute))

/-- The slot loop, run with enough fuel and a positive step, returns exactly
the grid points `cur`, `cur + Dm`, ... whose successor grid point still fits
under `bound`, with the booked ones filtered out. -/
theorem slotsLoop_characterization (Dm bound : Nat) (hD : 0 < Dm) (booked : List Nat) :
    ∀ fuel cur, bound + 1 ≤ cur + fuel →
      slotsLoop Dm bound booked fuel cur =
        ((List.range ((bound - cur) / Dm)).map (fun k => cur + k * Dm)).filter
          (fun x => ! booked.contains x) := by
  intro fuel
  induction fuel with
  | zero =>
    intro cur h
    have h0 : bound - cur = 0 := by omega
    simp [slotsLoop, h0]
  | succ fuel ih =>
    intro cur h
    simp only [slotsLoop]
    by_cases hg : cur + Dm ≤ bound
    · rw [if_pos hg, ih (cur + Dm) (by omega)]
      have hdiv : (bound - cur) / Dm = (bound - (cur + Dm)) / Dm + 1 := by
        rw [Nat.div_eq_sub_div hD (by omega), Nat.sub_sub]
      have hfun : ((fun k => cur + k * Dm) ∘ Nat.succ) = fun k => cur + Dm + k * Dm := by
        funext k
        simp only [Function.comp_apply, Nat.succ_mul]
        ring
      rw [hdiv, List.range_succ_eq_map, List.map_cons, List.map_map, hfun, List.filter_cons]
      simp only [Nat.zero_mul, Nat.add_zero]
      by_cases hb : booked.contains cur
      · simp [hb]
      · simp [hb]
    · rw [if_neg hg]
      have h0 : (bound - cur) / Dm = 0 := Nat.div_eq_of_lt (by omega)
      simp [h0]

/-- On a working day, find_available_slots is the default grid with the booked
start times of that day filtered out. -/
theorem find_available_slots_eq (D : Nat) (hD : 0 < D) (store : Store) (day : Nat)
    (hwd : day % 7 ≤ 4) :
    find_available_slots workingHours D store day =
      (slotGrid D day).filter
        (fun x => ! (get_booked_slots store (day * microsPerDay)
            (day * microsPerDay + microsPerDay)).contains x) := by
  have hwh : workingHours (day % 7) = some (hm 9 0, hm 17 0) := by
    simp [workingHours, hwd]
  unfold find_available_slots
  rw [hwh]
  dsimp only
  have hDm : 0 < D * microsPerMinute := Nat.mul_pos hD (by decide)
  rw [slotsLoop_characterization (D * microsPerMinute) (day * microsPerDay + hm 17 0) hDm _
      (day * microsPerDay + hm 17 0 + 1) (day * microsPerDay + hm 9 0) (by omega)]
  rw [Nat.add_sub_add_left]
  rfl

/-- C4: on a weekday with no working window the slot listing is empty for any
store; on a working day (against an empty store, so that no candidate is
suppressed) the candidates are exactly open, open + D, open + 2D, ... for as
long as a full slot fits before the close, i.e. the grid
`slotGrid`, in strictly ascending order with no partial trailing slot. -/
theorem slot_tiling (D day : Nat) (store : Store) (hD : 0 < D) :
    (4 < day % 7 → find_available_slots workingHours D store day = []) ∧
    (day % 7 ≤ 4 →
      find_available_slots workingHours D [] day = slotGrid D day ∧
      (slotGrid D day).Pairwise (fun a b => a < b)) := by
  constructor
  · intro hwd
    have hwh : workingHours (day % 7) = none := by
      simp only [workingHours, ite_eq_right_iff]
      intro hle
      omega
    unfold find_available_slots
    rw [hwh]
  · intro hwd
    refine ⟨?_, ?_⟩
    · rw [find_available_slots_eq D hD [] day hwd]
      have hb : get_booked_slots [] (day * microsPerDay) (day * microsPerDay + microsPerDay)
          = [] := rfl
      rw [hb]
      simp
    · have h1 : (List.range ((hm 17 0 - hm 9 0) / (D * microsPerMinute))).Pairwise
          (fun a b => a < b) := List.pairwise_lt_range _
      have hDm : 0 < D * microsPerMinute := Nat.mul_pos hD (by decide)
      exact List.Pairwise.map _
        (fun a b hab =>
          Nat.add_lt_add_left (Nat.mul_lt_mul_of_lt_of_le hab (Nat.le_refl _) hDm) _) h1

/-- Witness for C4 at the configured duration: day 0 (a Monday) and day 5
(a Saturday) with an empty store. -/
theorem slot_tiling_witness :
    ((4 < 0 % 7 → find_available_slots workingHours 60 [] 0 = []) ∧
      (0 % 7 ≤ 4 →
        find_available_slots workingHours 60 [] 0 = slotGrid 60 0 ∧
        (slotGrid 60 0).Pairwise (fun a b => a < b))) ∧
    ((4 < 5 % 7 → find_available_slots workingHours 60 [] 5 = []) ∧
      (5 % 7 ≤ 4 →
        find_available_slots workingHours 60 [] 5 = slotGrid 60 5 ∧
        (slotGrid 60 5).Pairwise (fun a b => a < b))) ∧
    slotGrid 60 0 =
      [dtOn 0 9 0, dtOn 0 10 0, dtOn 0 11 0, dtOn 0 12 0, dtOn 0 13 0, dtOn 0 14 0,
       dtOn 0 15 0, dtOn 0 16 0] :=
  ⟨slot_tiling 60 0 [] (by decide), slot_tiling 60 5 [] (by decide), by decide⟩

/-- C5: on a working day, a value is listed as available exactly when it is a
generated grid candidate and the store holds no appointment whose start time
falls inside the day and equals it exactly; suppression is by exact start-time
equality only, so a misaligned booking removes no candidate. -/
theorem slot_suppression_exact (D : Nat) (hD : 0 < D) (store : Store) (day c : Nat)
    (hwd : day % 7 ≤ 4) :
    c ∈ find_available_slots workingHours D store day ↔
      c ∈ slotGrid D day ∧
        ¬ ∃ a ∈ store, (day * microsPerDay ≤ a.appointment_datetime ∧
          a.appointment_datetime < day * microsPerDay + microsPerDay) ∧
          a.appointment_datetime = c := by
  have hmemiff : ∀ x : Nat, (get_booked_slots store (day * microsPerDay)
      (day * microsPerDay + microsPerDay)).contains x = true ↔
      ∃ a ∈ store, (day * microsPerDay ≤ a.appointment_datetime ∧
        a.appointment_datetime < day * microsPerDay + microsPerDay) ∧
        a.appointment_datetime = x := by
    intro x
    simp only [get_booked_slots, List.contains, List.elem_iff, List.mem_map, List.mem_filter,
      decide_eq_true_eq]
    constructor
    · rintro ⟨a, ⟨ha, hr⟩, he⟩
      exact ⟨a, ha, hr, he⟩
    · rintro ⟨a, ha, hr, he⟩
      exact ⟨a, ⟨ha, hr⟩, he⟩
  rw [find_available_slots_eq D hD store day hwd, List.mem_filter]
  constructor
  · rintro ⟨h1, h2⟩
    refine ⟨h1, fun hex => ?_⟩
    rw [(hmemiff c).2 hex] at h2
    simp at h2
  · rintro ⟨h1, h2⟩
    refine ⟨h1, ?_⟩
    cases hcb : (get_booked_slots store (day * microsPerDay)
        (day * microsPerDay + microsPerDay)).contains c with
    | false => rfl
    | true => exact absurd ((hmemiff c).1 hcb) h2

/-- A Monday 10:00 appointment of Bob, used as a concrete store row. -/
def bobRow : Appointment := ⟨1, ['B', 'o', 'b'], dtOn 7 10 0, 60, 0, []⟩

/-- A Monday 10:00 booking and a misaligned Monday 10:30 booking on day 0. -/
def alignedRow : Appointment := ⟨1, ['B', 'o', 'b'], dtOn 0 10 0, 60, 0, []⟩

/-- The misaligned booking: 10:30 does not lie on the hourly grid. -/
def misalignedRow : Appointment := ⟨2, ['C', 'a', 'r', 'l'], dtOn 0 10 30, 60, 0, []⟩

/-- Witness for C5: with a 10:00 booking and a misaligned 10:30 booking, the
aligned candidate 10:00 is suppressed exactly by the equality test and the
candidate 11:00, though overlapped by the 10:30 booking, is kept. -/
theorem slot_suppression_exact_witness :
    (dtOn 0 10 0 ∈ find_available_slots workingHours 60 [alignedRow, misalignedRow] 0 ↔
      dtOn 0 10 0 ∈ slotGrid 60 0 ∧
        ¬ ∃ a ∈ [alignedRow, misalignedRow], (0 * microsPerDay ≤ a.appointment_datetime ∧
          a.appointment_datetime < 0 * microsPerDay + microsPerDay) ∧
          a.appointment_datetime = dtOn 0 10 0) ∧
    (dtOn 0 11 0 ∈ find_available_slots workingHours 60 [alignedRow, misalignedRow] 0 ↔
      dtOn 0 11 0 ∈ slotGrid 60 0 ∧
        ¬ ∃ a ∈ [alignedRow, misalignedRow], (0 * microsPerDay ≤ a.appointment_datetime ∧
          a.appointment_datetime < 0 * microsPerDay + microsPerDay) ∧
          a.appointment_datetime = dtOn 0 11 0) :=
  ⟨slot_suppression_exact 60 (by decide) [alignedRow, misalignedRow] 0 (dtOn 0 10 0) (by decide),
   slot_suppression_exact 60 (by decide) [alignedRow, misalignedRow] 0 (dtOn 0 11 0) (by decide)⟩

/-- C3 counterexample: Monday 23:30 with the shipped table (close 17:00) and
D = 60 is accepted by the code, although the claimed formula
time-of-day + D ≤ close demands rejection: the slot crosses midnight, the end
computed as a time of day wraps to 00:30, and the wrapped value passes the
comparison against the close time. -/
theorem within_hours_midnight_cross :
    is_slot_within_working_hours workingHours 60 (dtOn 0 23 30) = true ∧
    workingHours (weekday (dtOn 0 23 30)) = some (hm 9 0, hm 17 0) ∧
    hm 17 0 < timeOfDay (dtOn 0 23 30) + 60 * microsPerMinute := by decide

/-- C3 amended: is_slot_within_working_hours holds iff the weekday has a
working window, the time of day is at least the open time, and the slot end
computed as a wrapped time of day, `timeOfDay (t + D)`, is at most the close
time (midnight close treated as 23:59:59.999999).  A slot ending exactly at
the close is accepted, and a start late enough that its slot crosses midnight
is wrongly accepted whenever the wrapped end passes the comparison. -/
theorem within_hours_characterization (wh : WHTable) (D dt : Nat) :
    is_slot_within_working_hours wh D dt = true ↔
      ∃ o c, wh (weekday dt) = some (o, c) ∧ o ≤ timeOfDay dt ∧
        timeOfDay (dt + D * microsPerMinute) ≤ (if c = 0 then microsPerDay - 1 else c) := by
  cases hwh : wh (weekday dt) with
  | none => simp [is_slot_within_working_hours, hwh]
  | some oc =>
    obtain ⟨o, c⟩ := oc
    simp [is_slot_within_working_hours, hwh]
    constructor
    · rintro ⟨h1, h2⟩
      exact ⟨o, c, ⟨rfl, rfl⟩, h1, h2⟩
    · rintro ⟨o2, c2, ⟨ho, hc⟩, h1, h2⟩
      subst ho
      subst hc
      exact ⟨h1, h2⟩

/-- C7: booking a time strictly before the current time fails as past-time
and leaves the store unchanged, whatever the store holds, provided the client
name passes the preceding emptiness check. -/
theorem booking_past_rejected (D now dtv : Nat) (name email : Str) (store : Store)
    (hname : strip name ≠ []) (hpast : dtv < now) :
    book_appointment D now (some dtv) name email store = (.pastTime, store) := by
  simp [book_appointment, hname, hpast]

/-- Witness for C7: booking Monday 11:00 when it is Monday 12:00. -/
theorem booking_past_rejected_witness :
    book_appointment 60 (dtOn 0 12 0) (some (dtOn 0 11 0)) ['A'] [] [] = (.pastTime, []) :=
  booking_past_rejected 60 (dtOn 0 12 0) (dtOn 0 11 0) ['A'] [] [] (by decide) (by decide)

/-- C9: when the datetime argument fails to parse (modelled by `none`, the
caught `ValueError` of `strptime`), each of the three mutating tools returns
the invalid-input reply and leaves the store unchanged; no exception escapes
because every return path is a value of `Res`. -/
theorem invalid_datetime_safe (wh : WHTable) (D now : Nat) (name email : Str) (store : Store)
    (po pn : Option Nat) (hname : strip name ≠ []) :
    book_appointment D now none name email store = (.invalidInput, store) ∧
    cancel_appointment none name store = (.invalidInput, store) ∧
    ((po = none ∨ pn = none) →
      edit_appointment wh D now po pn name store = (.invalidInput, store)) := by
  refine ⟨?_, rfl, ?_⟩
  · simp [book_appointment, hname]
  · rintro (h | h)
    · subst h
      cases pn <;> simp [edit_appointment, hname]
    · subst h
      cases po <;> simp [edit_appointment, hname]

/-- Witness for C9 at concrete unparseable inputs. -/
theorem invalid_datetime_safe_witness :
    book_appointment 60 0 none ['A'] [] [] = (.invalidInput, []) ∧
    cancel_appointment none ['A'] [] = (.invalidInput, []) ∧
    ((some 0 = none ∨ (none : Option Nat) = none) →
      edit_appointment workingHours 60 0 (some 0) none ['A'] [] = (.invalidInput, [])) :=
  invalid_datetime_safe workingHours 60 0 ['A'] [] [] (some 0) none (by decide)

/-- C1: the Cancellation Transaction on a parsed timestamp removes the
appointment matching both the start time and the client name and reports
success when one exists; when no appointment matches both fields it reports
not-found and the store is unchanged. -/
theorem cancel_scoped (dtv : Nat) (name : Str) (store : Store) :
    ((∃ a ∈ store, cancelMatch dtv name a = true) →
      cancel_appointment (some dtv) name store =
        (.success, store.eraseP (cancelMatch dtv name))) ∧
    ((∀ a ∈ store, cancelMatch dtv name a = false) →
      cancel_appointment (some dtv) name store = (.notFound, store)) := by
  constructor
  · intro hex
    have hany : store.any (cancelMatch dtv name) = true := by
      rw [List.any_eq_true]
      obtain ⟨a, ha, hpa⟩ := hex
      exact ⟨a, ha, hpa⟩
    simp [cancel_appointment, delete_appointment_from_db, hany]
  · intro hall
    have hany : store.any (cancelMatch dtv name) = false := by
      rw [List.any_eq_false]
      intro a ha
      simp [hall a ha]
    simp [cancel_appointment, delete_appointment_from_db, hany]

/-- Witness for C1 (the P6 scenario): Bob holds Monday 10:00; cancelling it
as Alice reports not-found and keeps Bob's appointment; cancelling it as Bob
removes it. -/
theorem cancel_scoped_witness :
    cancel_appointment (some (dtOn 7 10 0)) ['A', 'l', 'i', 'c', 'e'] [bobRow] =
      (.notFound, [bobRow]) ∧
    cancel_appointment (some (dtOn 7 10 0)) ['B', 'o', 'b'] [bobRow] =
      (.success, List.eraseP (cancelMatch (dtOn 7 10 0) ['B', 'o', 'b']) [bobRow]) :=
  ⟨(cancel_scoped (dtOn 7 10 0) ['A', 'l', 'i', 'c', 'e'] [bobRow]).2 (by decide),
   (cancel_scoped (dtOn 7 10 0) ['B', 'o', 'b'] [bobRow]).1 (by decide)⟩

/-- A row making Monday 10:00 of week 0 booked; that time lies in the past
relative to the Tuesday noon used in the C2 counterexample. -/
def bobPastRow : Appointment := ⟨1, ['B', 'o', 'b'], dtOn 0 10 0, 60, 0, []⟩

/-- C2 counterexample: rescheduling to a new time that is both in the past
and already booked returns the past-time reply, not the slot-conflict reply
the claimed check order demands. -/
theorem reschedule_order_counterexample :
    dtOn 0 10 0 < dtOn 1 12 0 ∧
    is_slot_already_booked [bobPastRow] (dtOn 0 10 0) = true ∧
    edit_appointment workingHours 60 (dtOn 1 12 0) (some (dtOn 3 10 0)) (some (dtOn 0 10 0))
      ['A', 'l', 'i', 'c', 'e'] [bobPastRow] = (.pastTime, [bobPastRow]) := by decide

/-- Helper: when the new time passes the past, hours and booked checks but no
row matches the stripped client name and the old time, the reschedule replies
not-found and leaves the store unchanged. -/
theorem edit_notfound_aux (wh : WHTable) (D now oldv newv : Nat) (name : Str) (s1 : Store)
    (hname : strip name ≠ []) (h1 : ¬ newv < now)
    (h2 : is_slot_within_working_hours wh D newv = true)
    (h3 : is_slot_already_booked s1 newv = false)
    (hfind : s1.find?
      (fun a => decide (a.client_name = strip name ∧ a.appointment_datetime = oldv)) = none) :
    edit_appointment wh D now (some oldv) (some newv) name s1 = (.notFound, s1) := by
  have h3a : s1.any (fun a => decide (a.appointment_datetime = newv)) = false := h3
  have hfa : s1.find?
      (fun a => decide (a.client_name = strip name) && decide (a.appointment_datetime = oldv))
      = none := by
    simpa only [Bool.decide_and] using hfind
  simp [edit_appointment, update_appointment_in_db, hname, h1, h2, h3, h3a, hfa]

/-- C2 amended: for parsed inputs and a valid client name the reschedule
checks run in the order past-time, out-of-hours, slot-conflict, not-found,
and the reply is that of the earliest failing check in this order; each case
leaves the store unchanged. -/
theorem reschedule_check_precedence (wh : WHTable) (D now oldv newv : Nat) (name : Str)
    (store : Store) (hname : strip name ≠ []) :
    (newv < now →
      edit_appointment wh D now (some oldv) (some newv) name store = (.pastTime, store)) ∧
    (¬ newv < now → is_slot_within_working_hours wh D newv = false →
      edit_appointment wh D now (some oldv) (some newv) name store = (.outOfHours, store)) ∧
    (¬ newv < now → is_slot_within_working_hours wh D newv = true →
      is_slot_already_booked store newv = true →
      edit_appointment wh D now (some oldv) (some newv) name store = (.slotConflict, store)) ∧
    (¬ newv < now → is_slot_within_working_hours wh D newv = true →
      is_slot_already_booked store newv = false →
      store.find? (fun a => decide (a.client_name = strip name ∧ a.appointment_datetime = oldv))
        = none →
      edit_appointment wh D now (some oldv) (some newv) name store = (.notFound, store)) := by
  refine ⟨?_, ?_, ?_, ?_⟩
  · intro h1
    simp [edit_appointment, hname, h1]
  · intro h1 h2
    simp [edit_appointment, hname, h1, h2]
  · intro h1 h2 h3
    simp [edit_appointment, hname, h1, h2, h3]
  · intro h1 h2 h3 h4
    exact edit_notfound_aux wh D now oldv newv name store hname h1 h2 h3 h4

/-- Witness for C2's amended ordering, instantiating all four branches:
a past new time beats a conflict; a Saturday new time is out of hours; a
booked new time conflicts; an unmatched client and time is not found. -/
theorem reschedule_check_precedence_witness :
    edit_appointment workingHours 60 (dtOn 1 12 0) (some (dtOn 3 10 0)) (some (dtOn 0 10 0))
      ['A'] [bobPastRow] = (.pastTime, [bobPastRow]) ∧
    edit_appointment workingHours 60 0 (some (dtOn 7 10 0)) (some (dtOn 5 10 0)) ['A'] [] =
      (.outOfHours, []) ∧
    edit_appointment workingHours 60 0 (some (dtOn 7 11 0)) (some (dtOn 7 10 0))
      ['A'] [bobRow] = (.slotConflict, [bobRow]) ∧
    edit_appointment workingHours 60 0 (some (dtOn 7 10 0)) (some (dtOn 7 11 0))
      ['A', 'l', 'i', 'c', 'e'] [bobRow] = (.notFound, [bobRow]) :=
  ⟨(reschedule_check_precedence workingHours 60 (dtOn 1 12 0) (dtOn 3 10 0) (dtOn 0 10 0)
      ['A'] [bobPastRow] (by decide)).1 (by decide),
   (reschedule_check_precedence workingHours 60 0 (dtOn 7 10 0) (dtOn 5 10 0)
      ['A'] [] (by decide)).2.1 (by decide) (by decide),
   (reschedule_check_precedence workingHours 60 0 (dtOn 7 11 0) (dtOn 7 10 0)
      ['A'] [bobRow] (by decide)).2.2.1 (by decide) (by decide) (by decide),
   (reschedule_check_precedence workingHours 60 0 (dtOn 7 10 0) (dtOn 7 11 0)
      ['A', 'l', 'i', 'c', 'e'] [bobRow] (by decide)).2.2.2 (by decide) (by decide) (by decide)
      (by decide)⟩

/-- C8: when the database update succeeds, some row was found as the first
match of the client name and the old time, and the new store is the old one
with exactly that row's start time replaced: the row keeps its id, client
name, duration, creation time and email, and every row with a different id is
unchanged and still present. -/
theorem reschedule_frame (name : Str) (oldv newv : Nat) (store s2 : Store)
    (h : update_appointment_in_db name oldv newv store = (true, s2)) :
    ∃ a, store.find? (fun b => decide (b.client_name = name ∧ b.appointment_datetime = oldv))
        = some a ∧
      a.client_name = name ∧ a.appointment_datetime = oldv ∧
      s2 = store.map (fun b =>
        if b.id = a.id then { b with appointment_datetime := newv } else b) ∧
      { a with appointment_datetime := newv } ∈ s2 ∧
      ∀ b ∈ store, b.id ≠ a.id → b ∈ s2 := by
  unfold update_appointment_in_db at h
  cases hany : store.any (fun a => decide (a.appointment_datetime = newv)) with
  | true =>
    rw [hany] at h
    simp at h
  | false =>
    rw [hany] at h
    cases hfind : store.find?
        (fun a => decide (a.client_name = name ∧ a.appointment_datetime = oldv)) with
    | none =>
      rw [hfind] at h
      simp at h
    | some a =>
      rw [hfind] at h
      simp only [Bool.false_eq_true, if_false, Prod.mk.injEq, true_and] at h
      have hs2 : store.map (fun b =>
          if b.id = a.id then { b with appointment_datetime := newv } else b) = s2 := h
      have hmem := List.mem_of_find?_eq_some hfind
      have hp := List.find?_some hfind
      rw [decide_eq_true_eq] at hp
      refine ⟨a, rfl, hp.1, hp.2, hs2.symm, ?_, ?_⟩
      · rw [← hs2]
        have h2 := List.mem_map_of_mem
          (fun b => if b.id = a.id then { b with appointment_datetime := newv } else b) hmem
        simpa using h2
      · intro b hb hneq
        rw [← hs2]
        have h2 := List.mem_map_of_mem
          (fun b => if b.id = a.id then { b with appointment_datetime := newv } else b) hb
        simpa [if_neg hneq] using h2

/-- Alice's Monday 10:00 appointment, rescheduled to 11:00 in the C8
witness. -/
def aliceRow : Appointment := ⟨1, ['A', 'l', 'i', 'c', 'e'], dtOn 7 10 0, 60, 0, []⟩

/-- Witness for C8 at a concrete one-row store. -/
theorem reschedule_frame_witness :
    ∃ a, [aliceRow].find? (fun b => decide (b.client_name = ['A', 'l', 'i', 'c', 'e'] ∧
        b.appointment_datetime = dtOn 7 10 0)) = some a ∧
      a.client_name = ['A', 'l', 'i', 'c', 'e'] ∧ a.appointment_datetime = dtOn 7 10 0 ∧
      [⟨1, ['A', 'l', 'i', 'c', 'e'], dtOn 7 11 0, 60, 0, []⟩] = [aliceRow].map (fun b =>
        if b.id = a.id then { b with appointment_datetime := dtOn 7 11 0 } else b) ∧
      { a with appointment_datetime := dtOn 7 11 0 } ∈
        [(⟨1, ['A', 'l', 'i', 'c', 'e'], dtOn 7 11 0, 60, 0, []⟩ : Appointment)] ∧
      ∀ b ∈ [aliceRow], b.id ≠ a.id →
        b ∈ [(⟨1, ['A', 'l', 'i', 'c', 'e'], dtOn 7 11 0, 60, 0, []⟩ : Appointment)] :=
  reschedule_frame ['A', 'l', 'i', 'c', 'e'] (dtOn 7 10 0) (dtOn 7 11 0) [aliceRow]
    [⟨1, ['A', 'l', 'i', 'c', 'e'], dtOn 7 11 0, 60, 0, []⟩] (by decide)

/-- C10: booking rejects a name that is empty after stripping but stores an
accepted name exactly as given, while rescheduling strips its name before
matching; so an appointment booked under a whitespace-padded name is never
matched by a reschedule passing the same string, which replies not-found. -/
theorem trim_mismatch_notfound (wh : WHTable) (D now now2 dtv newv : Nat) (name email : Str)
    (store : Store) (hpad : strip name ≠ name) (hname : strip name ≠ [])
    (hfree : store.any (fun a => decide (a.appointment_datetime = dtv)) = false)
    (hnp : ¬ dtv < now) :
    (∀ n2 : Str, strip n2 = [] →
      book_appointment D now (some dtv) n2 email store = (.emptyName, store)) ∧
    book_appointment D now (some dtv) name email store =
      (.success, store ++ [⟨nextId store, name, dtv, D, now, email⟩]) ∧
    (¬ newv < now2 → is_slot_within_working_hours wh D newv = true →
      is_slot_already_booked (store ++ [⟨nextId store, name, dtv, D, now, email⟩]) newv
        = false →
      edit_appointment wh D now2 (some dtv) (some newv) name
        (store ++ [⟨nextId store, name, dtv, D, now, email⟩]) =
        (.notFound, store ++ [⟨nextId store, name, dtv, D, now, email⟩])) := by
  refine ⟨?_, ?_, ?_⟩
  · intro n2 h2
    simp [book_appointment, h2]
  · simp [book_appointment, add_appointment, hname, hnp, hfree]
  · intro h1 h2 h3
    refine edit_notfound_aux wh D now2 dtv newv name _ hname h1 h2 h3 ?_
    rw [List.find?_eq_none]
    intro x hx
    rcases List.mem_append.1 hx with hx2 | hx2
    · rw [List.any_eq_false] at hfree
      have hxne := hfree x hx2
      simp only [decide_eq_true_eq] at hxne ⊢
      intro hcon
      exact hxne hcon.2
    · simp only [List.mem_singleton] at hx2
      subst hx2
      simp only [decide_eq_true_eq]
      intro hcon
      exact hpad hcon.1.symm

/-- Witness for C10: the padded name is ' A ', booked at Monday 10:00 of week
one into an empty store and then rescheduled to 11:00 with the same padded
string. -/
theorem trim_mismatch_notfound_witness :
    ((∀ n2 : Str, strip n2 = [] →
      book_appointment 60 0 (some (dtOn 7 10 0)) n2 [] [] = (.emptyName, [])) ∧
    book_appointment 60 0 (some (dtOn 7 10 0)) [' ', 'A', ' '] [] [] =
      (.success, [] ++ [⟨nextId [], [' ', 'A', ' '], dtOn 7 10 0, 60, 0, []⟩]) ∧
    (¬ dtOn 7 11 0 < 0 → is_slot_within_working_hours workingHours 60 (dtOn 7 11 0) = true →
      is_slot_already_booked ([] ++ [⟨nextId [], [' ', 'A', ' '], dtOn 7 10 0, 60, 0, []⟩])
        (dtOn 7 11 0) = false →
      edit_appointment workingHours 60 0 (some (dtOn 7 10 0)) (some (dtOn 7 11 0))
        [' ', 'A', ' '] ([] ++ [⟨nextId [], [' ', 'A', ' '], dtOn 7 10 0, 60, 0, []⟩]) =
        (.notFound, [] ++ [⟨nextId [], [' ', 'A', ' '], dtOn 7 10 0, 60, 0, []⟩]))) ∧
    edit_appointment workingHours 60 0 (some (dtOn 7 10 0)) (some (dtOn 7 11 0))
      [' ', 'A', ' '] ([] ++ [⟨nextId [], [' ', 'A', ' '], dtOn 7 10 0, 60, 0, []⟩]) =
      (.notFound, [] ++ [⟨nextId [], [' ', 'A', ' '], dtOn 7 10 0, 60, 0, []⟩]) :=
  ⟨trim_mismatch_notfound workingHours 60 0 0 (dtOn 7 10 0) (dtOn 7 11 0) [' ', 'A', ' ']
      [] [] (by decide) (by decide) (by decide) (by decide),
   (trim_mismatch_notfound workingHours 60 0 0 (dtOn 7 10 0) (dtOn 7 11 0) [' ', 'A', ' ']
      [] [] (by decide) (by decide) (by decide) (by decide)).2.2
      (by decide) (by decide) (by decide)⟩

/-- An event of the booking-race model: a transaction identifier together
with which of its two steps runs, `false` for the SELECT pre-check of
add_appointment and `true` for the INSERT attempt. -/
abbrev Event := Nat × Bool

/-- The program of one Booking Transaction targeting the contended start
time: its pre-check followed by its insert, as in add_appointment. -/
def txProg (i : Nat) : List Event := [(i, false), (i, true)]

/-- Executes an interleaved trace of Booking Transactions that all target the
same free slot.  `taken` says whether some insert has committed the slot;
`checked` lists the transactions whose pre-check saw the slot free.  A
pre-check that sees the slot taken makes add_appointment return false at once
(the slot-conflict reply of book_appointment) and the transaction's insert
never runs; an insert by a transaction whose pre-check passed succeeds only
if the slot is still free, otherwise the UNIQUE constraint raises
IntegrityError, which add_appointment catches and reports as the same false,
i.e. the same slot-conflict reply.  Returns each completed transaction's
reply. -/
def runTx : Bool → List Nat → List Event → List (Nat × Res)
  | _, _, [] => []
  | taken, checked, (i, false) :: rest =>
    if taken then (i, Res.slotConflict) :: runTx taken checked rest
    else runTx taken (i :: checked) rest
  | taken, checked, (i, true) :: rest =>
    if checked.contains i then
      if taken then (i, Res.slotConflict) :: runTx taken checked rest
      else (i, Res.success) :: runTx true checked rest
    else runTx taken checked rest

/-- Some insert event in the trace belongs to a transaction whose pre-check
already passed (is in `checked`) or passes earlier in the trace. -/
def hasGoodInsert : List Nat → List Event → Bool
  | _, [] => false
  | checked, (j, false) :: rest => hasGoodInsert (j :: checked) rest
  | checked, (j, true) :: rest => checked.contains j || hasGoodInsert checked rest

/-- The trace is an interleaving of the given per-transaction programs: at
each step the head event of one pending program runs. -/
inductive Inter : List (List Event) → List Event → Prop where
  | done : ∀ progs, (∀ p ∈ progs, p = []) → Inter progs []
  | step : ∀ (L : List (List Event)) (e : Event) (p : List Event) (R : List (List Event))
      (t : List Event), Inter (L ++ p :: R) t → Inter (L ++ (e :: p) :: R) (e :: t)

/-- A pending program that still guarantees a good insert: either a full
check-then-insert program, or a bare insert whose check already passed. -/
def GoodProg (checked : List Nat) (p : List Event) : Prop :=
  (∃ i, p = [(i, false), (i, true)]) ∨ ∃ i, p = [(i, true)] ∧ i ∈ checked

/-- GoodProg survives enlarging the checked set. -/
theorem goodProg_mono {checked : List Nat} {j : Nat} {p : List Event}
    (h : GoodProg checked p) : GoodProg (j :: checked) p := by
  rcases h with ⟨i, hi⟩ | ⟨i, hi, hic⟩
  · exact Or.inl ⟨i, hi⟩
  · exact Or.inr ⟨i, hi, List.mem_cons_of_mem _ hic⟩

/-- Once the slot is taken no later transaction reports success. -/
theorem runTx_taken_no_success : ∀ (trace : List Event) (checked : List Nat),
    (runTx true checked trace).countP (fun r => decide (r.2 = Res.success)) = 0 := by
  intro trace
  induction trace with
  | nil => intro checked; rfl
  | cons e rest ih =>
    intro checked
    obtain ⟨j, b⟩ := e
    cases b
    · simp [runTx, List.countP_cons, ih]
    · cases hc : checked.contains j with
      | true =>
        simp only [runTx]
        rw [hc]
        simp [List.countP_cons, ih]
      | false =>
        simp only [runTx]
        rw [hc]
        simp [ih]

/-- On a free slot, a trace with a good insert produces exactly one
success. -/
theorem runTx_good_one_success : ∀ (trace : List Event) (checked : List Nat),
    hasGoodInsert checked trace = true →
    (runTx false checked trace).countP (fun r => decide (r.2 = Res.success)) = 1 := by
  intro trace
  induction trace with
  | nil =>
    intro checked h
    simp [hasGoodInsert] at h
  | cons e rest ih =>
    intro checked h
    obtain ⟨j, b⟩ := e
    cases b
    · rw [hasGoodInsert] at h
      simpa [runTx] using ih (j :: checked) h
    · cases hc : checked.contains j with
      | true =>
        simp only [runTx]
        rw [hc]
        simp [List.countP_cons, runTx_taken_no_success]
      | false =>
        rw [hasGoodInsert, hc] at h
        simp only [Bool.false_or] at h
        simp only [runTx]
        rw [hc]
        simpa using ih checked h

/-- Every reported reply is success or slot-conflict. -/
theorem runTx_results_shape : ∀ (trace : List Event) (taken : Bool) (checked : List Nat)
    (r : Nat × Res), r ∈ runTx taken checked trace →
    r.2 = Res.success ∨ r.2 = Res.slotConflict := by
  intro trace
  induction trace with
  | nil =>
    intro taken checked r h
    simp [runTx] at h
  | cons e rest ih =>
    intro taken checked r h
    obtain ⟨j, b⟩ := e
    cases b
    · cases taken
      · rw [runTx, if_neg (by simp)] at h
        exact ih false (j :: checked) r h
      · rw [runTx, if_pos rfl] at h
        rcases List.mem_cons.1 h with h2 | h2
        · subst h2; exact Or.inr rfl
        · exact ih true checked r h2
    · cases hc : checked.contains j with
      | true =>
        cases taken
        · rw [runTx, if_pos hc, if_neg (by simp)] at h
          rcases List.mem_cons.1 h with h2 | h2
          · subst h2; exact Or.inl rfl
          · exact ih true checked r h2
        · rw [runTx, if_pos hc, if_pos rfl] at h
          rcases List.mem_cons.1 h with h2 | h2
          · subst h2; exact Or.inr rfl
          · exact ih true checked r h2
      | false =>
        rw [runTx, if_neg (by rw [hc]; exact Bool.false_ne_true)] at h
        exact ih taken checked r h

/-- An interleaving of programs one of which is still good yields a trace
with a good insert. -/
theorem inter_hasGoodInsert : ∀ (progs : List (List Event)) (trace : List Event),
    Inter progs trace → ∀ checked : List Nat, (∃ p ∈ progs, GoodProg checked p) →
    hasGoodInsert checked trace = true := by
  intro progs trace h
  induction h with
  | done ps hall =>
    rintro checked ⟨q, hq, hgq⟩
    have hqe := hall q hq
    subst hqe
    rcases hgq with ⟨i, hi⟩ | ⟨i, hi, _⟩ <;> simp at hi
  | step L e p R t hrec ih =>
    rintro checked ⟨q, hq, hgq⟩
    obtain ⟨j, b⟩ := e
    cases b
    · rw [hasGoodInsert]
      apply ih (j :: checked)
      rcases List.mem_append.1 hq with hqL | hqc
      · exact ⟨q, List.mem_append_left _ hqL, goodProg_mono hgq⟩
      · rcases List.mem_cons.1 hqc with hqe | hqR
        · rcases hgq with ⟨i, hi⟩ | ⟨i, hi, hic⟩
          · rw [hqe] at hi
            have hji : j = i ∧ p = [(i, true)] := by
              have h1 := List.head_eq_of_cons_eq hi
              have h2 := List.tail_eq_of_cons_eq hi
              constructor
              · exact congrArg Prod.fst h1
              · exact h2
            refine ⟨p, List.mem_append_right _ (List.mem_cons_self _ _), Or.inr ⟨i, hji.2, ?_⟩⟩
            rw [hji.1]
            exact List.mem_cons_self _ _
          · rw [hqe] at hi
            have h1 := List.head_eq_of_cons_eq hi
            simp at h1
        · exact ⟨q, List.mem_append_right _ (List.mem_cons_of_mem _ hqR), goodProg_mono hgq⟩
    · rw [hasGoodInsert]
      rcases List.mem_append.1 hq with hqL | hqc
      · have := ih checked ⟨q, List.mem_append_left _ hqL, hgq⟩
        rw [this]
        simp
      · rcases List.mem_cons.1 hqc with hqe | hqR
        · rcases hgq with ⟨i, hi⟩ | ⟨i, hi, hic⟩
          · rw [hqe] at hi
            have h1 := List.head_eq_of_cons_eq hi
            simp at h1
          · rw [hqe] at hi
            have h1 := List.head_eq_of_cons_eq hi
            have hji : j = i := congrArg Prod.fst h1
            subst hji
            have : checked.contains j = true := by
              rw [List.contains_iff_exists_mem_beq]
              exact ⟨j, hic, by simp⟩
            rw [this]
            simp
        · have := ih checked ⟨q, List.mem_append_right _ (List.mem_cons_of_mem _ hqR), hgq⟩
          rw [this]
          simp

/-- C6: in every interleaved execution of n Booking Transactions that all
target the same initially free start time, exactly one reports success, and
every reply is either the success reply or the slot-conflict reply — in
particular an insert rejected by the UNIQUE constraint after a passed
pre-check is reported exactly like a pre-check conflict. -/
theorem booking_race_unique (n : Nat) (trace : List Event) (hn : 1 ≤ n)
    (hint : Inter ((List.range n).map txProg) trace) :
    (runTx false [] trace).countP (fun r => decide (r.2 = Res.success)) = 1 ∧
    ∀ r ∈ runTx false [] trace, r.2 = Res.success ∨ r.2 = Res.slotConflict := by
  constructor
  · apply runTx_good_one_success
    apply inter_hasGoodInsert _ _ hint []
    refine ⟨txProg 0, ?_, Or.inl ⟨0, rfl⟩⟩
    exact List.mem_map_of_mem txProg (List.mem_range.2 (by omega))
  · intro r hr
    exact runTx_results_shape trace false [] r hr

/-- Witness for C6: two transactions race, both pre-checks pass before any
insert runs, and still exactly one success is reported. -/
theorem booking_race_unique_witness :
    (runTx false [] [(0, false), (1, false), (1, true), (0, true)]).countP
      (fun r => decide (r.2 = Res.success)) = 1 ∧
    ∀ r ∈ runTx false [] [(0, false), (1, false), (1, true), (0, true)],
      r.2 = Res.success ∨ r.2 = Res.slotConflict :=
  booking_race_unique 2 [(0, false), (1, false), (1, true), (0, true)] (by decide)
    (by
      have h3 : Inter [[], []] ([] : List Event) := Inter.done _ (by decide)
      have h2 : Inter [[(0, true)], []] [(0, true)] :=
        Inter.step [] (0, true) [] [[]] [] h3
      have h1 : Inter [[(0, true)], [(1, true)]] [(1, true), (0, true)] :=
        Inter.step [[(0, true)]] (1, true) [] [] [(0, true)] h2
      have h0 : Inter [[(0, true)], [(1, false), (1, true)]]
          [(1, false), (1, true), (0, true)] :=
        Inter.step [[(0, true)]] (1, false) [(1, true)] [] [(1, true), (0, true)] h1
      exact Inter.step [] (0, false) [(0, true)] [[(1, false), (1, true)]]
        [(1, false), (1, true), (0, true)] h0)

end AppointMate
